import Mathlib

/-!
Verification of the policy-engine decision pipeline
(`src/policy_engine/main.go`): a shallow embedding of `Check`,
`evaluatePolicy`, `buildAllowResponse` and `buildDenyResponse`, with the
testable properties of the spec proved against it.

Modelling conventions:
* Go `map[string]string` values become association lists
  (`List (String × String)`) looked up with `mapGet`, which returns the
  first binding (Go maps have unique keys, so this is faithful).
* The wall clock (`time.Now()`) becomes an explicit `Clock` value carrying
  the hour of the instant and its two rendered forms (`now.Format("3:04 PM")`
  and `now.Format(time.RFC3339)`); per the concurrency model of the spec the
  clock read is a pure function returning a fixed instant, so both reads
  in `evaluatePolicy` see the same value.
* `strings.HasPrefix`, `strings.Contains` and `strings.ToLower` are
  modelled over the character lists underlying `String` (`goHasPrefix`,
  `strContains`, `goToLower`); case folding is ASCII, which agrees with
  the Go Unicode folding on every string the policies touch.
* gRPC errors (`status.Error(codes.InvalidArgument, …)`) become the
  `Except.error` branch of the `Check` result.
-/

/-- Lookup in a Go `map[string]string`, modelled as an association list:
returns the value of the first binding of the key, if any. -/
def mapGet (m : List (String × String)) (k : String) : Option String :=
  match m with
  | [] => none
  | (k', v) :: rest => if k' == k then some v else mapGet rest k

/-- The HTTP sub-record of the attribute context
(`attrs.GetRequest().GetHttp()`): method, path, host, scheme, headers. -/
structure HttpRequest where
  method : String
  path : String
  host : String
  scheme : String
  headers : List (String × String)
deriving Repr, DecidableEq

/-- The `request` record of the attribute context; its `http` field may be
absent (nil pointer in the source). -/
structure RequestAttrs where
  http : Option HttpRequest
deriving Repr, DecidableEq

/-- Model of `pb.AttributeContext`: the request snapshot handed to the pipeline.
`request` may be absent (nil); `contextExtensions` is the caller-supplied
string map. -/
structure AttributeContext where
  request : Option RequestAttrs
  contextExtensions : List (String × String)
deriving Repr, DecidableEq

/-- One wall-clock instant as the pipeline observes it: `hour` is
`now.Hour()` (0–23, server-local), `humanFormat` is
`now.Format("3:04 PM")`, `rfc3339` is `now.Format(time.RFC3339)`. -/
structure Clock where
  hour : Nat
  humanFormat : String
  rfc3339 : String
deriving Repr, DecidableEq

/-- The `policyDecision` struct from the source: verdict, reason, headers to set on
allow, headers to remove on allow. -/
structure policyDecision where
  allowed : Bool
  reason : String
  headers : List (String × String)
  headersToRemove : List String
deriving Repr, DecidableEq

/-- A deny decision: in the source every deny branch builds
`policyDecision{allowed: false, reason: …}` with zero-value (empty)
header fields. -/
def denyD (r : String) : policyDecision :=
  { allowed := false, reason := r, headers := [], headersToRemove := [] }

/-- The guard of policy 2 on the looked-up `authorization` header:
Go `!exists || authHeader == ""`. -/
def authHeaderMissing : Option String → Bool
  | none => true
  | some a => a == ""

/-- Go `strings.HasPrefix s pre`. -/
def goHasPrefix (s pre : String) : Bool :=
  pre.data.isPrefixOf s.data

/-- ASCII lower-casing of one character (the fragment of the Go Unicode
case folding exercised by the bot rule). -/
def goLowerChar (c : Char) : Char :=
  if 65 ≤ c.toNat ∧ c.toNat ≤ 90 then Char.ofNat (c.toNat + 32) else c

/-- Go `strings.ToLower`. -/
def goToLower (s : String) : String :=
  ⟨s.data.map goLowerChar⟩

/-- Substring containment on character lists (Go `strings.Contains`). -/
def charListHas (pat : List Char) : List Char → Bool
  | [] => pat.isEmpty
  | c :: rest => pat.isPrefixOf (c :: rest) || charListHas pat rest

/-- Go `strings.Contains s pat`. -/
def strContains (s pat : String) : Bool :=
  charListHas pat.data s.data

/-- The guard of policy 5 on the looked-up `user-agent` header: Go
`exists && strings.Contains(strings.ToLower(userAgent), "bot")`. -/
def uaDeny : Option String → Bool
  | none => false
  | some ua => strContains (goToLower ua) "bot"

/-- The two headers every allow decision starts from
(`x-authorized-by` and `x-decision-time`, source lines 182–185). -/
def baseAllowHeaders (now : Clock) : List (String × String) :=
  [("x-authorized-by", "policy-engine"), ("x-decision-time", now.rfc3339)]

/-- The allow headers after the conditional `x-environment` insertion
(source lines 190–192). -/
def envApplied (now : Clock) (contextExts : List (String × String)) :
    List (String × String) :=
  match mapGet contextExts "environment" with
  | some env => baseAllowHeaders now ++ [("x-environment", env)]
  | none => baseAllowHeaders now

/-- The full allow header map after the conditional `x-region` insertion
(source lines 195–197). -/
def allowHeaders (now : Clock) (contextExts : List (String × String)) :
    List (String × String) :=
  match mapGet contextExts "region" with
  | some region => envApplied now contextExts ++ [("x-region", region)]
  | none => envApplied now contextExts

/-- The terminal allow decision (source lines 179–199). -/
def allowDecision (now : Clock) (contextExts : List (String × String)) :
    policyDecision :=
  { allowed := true
    reason := "request meets all policy requirements"
    headers := allowHeaders now contextExts
    headersToRemove := ["authorization"] }

/-- Policies 4 and 5 followed by the terminal allow (source lines
155–199), reached once policies 1–3 have passed. -/
def afterTimeRules (now : Clock) (contextExts headers : List (String × String)) :
    policyDecision :=
  if (mapGet contextExts "environment" == some "production")
      && !(mapGet headers "x-production-access" == some "true") then
    denyD "production environment requires x-production-access header"
  else if uaDeny (mapGet headers "user-agent") then
    denyD "bot user agents are not allowed"
  else
    allowDecision now contextExts

/-- Translation of `evaluatePolicy` (source lines 111–200): the ordered rule chain.
Missing `request` or `request.http` yield deny decisions; then policies
1 (admin path), 2 (POST authorization), 3 (business hours), 4
(production header), 5 (bot user agent), and the terminal allow, in that
order, short-circuiting at the first deny. -/
def evaluatePolicy (now : Clock) (attrs : AttributeContext) : policyDecision :=
  match attrs.request with
  | none => denyD "missing request"
  | some req =>
    match req.http with
    | none => denyD "missing HTTP request"
    | some httpReq =>
      if goHasPrefix httpReq.path "/admin" then
        denyD ("access denied to admin path: " ++ httpReq.path)
      else if httpReq.method == "POST"
          && authHeaderMissing (mapGet httpReq.headers "authorization") then
        denyD "POST requests require Authorization header"
      else if now.hour < 9 ∨ 17 ≤ now.hour then
        denyD ("access restricted to business hours (9 AM - 5 PM), current time: "
          ++ now.humanFormat)
      else
        afterTimeRules now attrs.contextExtensions httpReq.headers

/-- Model of `pb.HeaderValue`: one key/value pair. -/
structure HeaderValue where
  key : String
  value : String
deriving Repr, DecidableEq

/-- Model of `pb.HeaderValueOption`: a header pair plus the optional `Append`
wrapper (`some false` on allow responses — replace, never append;
absent on deny responses). -/
structure HeaderValueOption where
  header : HeaderValue
  append : Option Bool
deriving Repr, DecidableEq

/-- The `HttpResponse` oneof of `pb.CheckResponse`: either an OK response
(headers to set, headers to remove) or a denied response (HTTP status
code, headers, body). `pb.StatusCode_Forbidden` is HTTP 403. -/
inductive HttpResponseShape where
  | okResponse (headers : List HeaderValueOption) (headersToRemove : List String)
  | deniedResponse (httpStatusCode : Nat) (headers : List HeaderValueOption)
      (body : String)
deriving Repr, DecidableEq

/-- Model of `pb.Status`: the gRPC-style status carried inside the response
(0 = OK, 7 = PERMISSION_DENIED). -/
structure RpcStatus where
  code : Nat
  message : String
deriving Repr, DecidableEq

/-- Model of `pb.CheckResponse`. -/
structure CheckResponse where
  status : RpcStatus
  httpResponse : HttpResponseShape
deriving Repr, DecidableEq

/-- Translation of `buildAllowResponse` (source lines 202–234): status OK with the
decision reason; each header marked replace (`Append = false`); the
remove list copied over. (Go iterates the header map in unspecified
order; the list model fixes the insertion order, which no claim
depends on.) -/
def buildAllowResponse (decision : policyDecision) : CheckResponse :=
  { status := { code := 0, message := decision.reason }
    httpResponse := HttpResponseShape.okResponse
      (decision.headers.map fun kv =>
        { header := { key := kv.1, value := kv.2 }, append := some false })
      decision.headersToRemove }

/-- Translation of `buildDenyResponse` (source lines 236–265): status PERMISSION_DENIED
(7) with the reason; a synthesized 403 response with the two diagnostic
headers and the `Access Denied` body. -/
def buildDenyResponse (decision : policyDecision) : CheckResponse :=
  { status := { code := 7, message := decision.reason }
    httpResponse := HttpResponseShape.deniedResponse 403
      [ { header := { key := "x-auth-denied", value := "true" }, append := none },
        { header := { key := "x-auth-reason", value := decision.reason }, append := none } ]
      ("Access Denied: " ++ decision.reason) }

/-- The gRPC error codes the endpoint can return directly. -/
inductive GrpcCode where
  | invalidArgument
deriving Repr, DecidableEq

/-- A gRPC error (`status.Error(code, msg)`). -/
structure GrpcError where
  code : GrpcCode
  message : String
deriving Repr, DecidableEq

/-- Model of `pb.CheckRequest`: its `attributes` field may be absent (nil). -/
structure CheckRequest where
  attributes : Option AttributeContext
deriving Repr, DecidableEq

/-- Translation of `Check` (source lines 30–52): nil attributes fail with
`codes.InvalidArgument`; otherwise the decision is computed and
translated into the allow or deny response shape. -/
def Check (now : Clock) (req : CheckRequest) : Except GrpcError CheckResponse :=
  match req.attributes with
  | none => Except.error { code := GrpcCode.invalidArgument, message := "missing attributes" }
  | some attrs =>
    if (evaluatePolicy now attrs).allowed then
      Except.ok (buildAllowResponse (evaluatePolicy now attrs))
    else
      Except.ok (buildDenyResponse (evaluatePolicy now attrs))

/-- A concrete in-window instant (hour 10) used by concrete scenarios. -/
def clockTen : Clock :=
  { hour := 10, humanFormat := "10:00 AM", rfc3339 := "2026-10-11T10:00:00Z" }

/-- A concrete out-of-window instant (hour 20). -/
def clockTwenty : Clock :=
  { hour := 20, humanFormat := "8:00 PM", rfc3339 := "2026-10-11T20:00:00Z" }

/-- A context built from method, path, headers and context extensions,
with fixed host and scheme (the rules never read host or scheme). -/
def mkCtx (method path : String) (headers exts : List (String × String)) :
    AttributeContext :=
  ⟨some ⟨some ⟨method, path, "backend", "http", headers⟩⟩, exts⟩

/-- Helper: a string with head `a`, extended by any suffix, differs from a
string with head `b` when `a ≠ b`. -/
theorem append_ne_of_head_ne {a b : Char} {s u : String} (t : String)
    (hs : s.data.head? = some a) (hu : u.data.head? = some b) (hab : a ≠ b) :
    s ++ t ≠ u := by
  intro h
  have hd : (s ++ t).data = s.data ++ t.data := rfl
  have h2 : (s.data ++ t.data).head? = some b := by rw [← hd, h, hu]
  cases hcs : s.data with
  | nil => rw [hcs] at hs; cases hs
  | cons c cs =>
    rw [hcs] at hs h2
    simp only [List.head?_cons, List.cons_append] at hs h2
    exact hab (by rw [← Option.some.inj hs, Option.some.inj h2])

/-- Helper: every decision the pipeline produces is either a bare deny
(`denyD` with empty header fields) or the terminal allow decision built
from the extensions of the context. -/
theorem evaluatePolicy_cases (now : Clock) (ctx : AttributeContext) :
    (∃ r, evaluatePolicy now ctx = denyD r) ∨
    evaluatePolicy now ctx = allowDecision now ctx.contextExtensions := by
  unfold evaluatePolicy afterTimeRules
  split
  · exact Or.inl ⟨_, rfl⟩
  · split
    · exact Or.inl ⟨_, rfl⟩
    · split
      · exact Or.inl ⟨_, rfl⟩
      · split
        · exact Or.inl ⟨_, rfl⟩
        · split
          · exact Or.inl ⟨_, rfl⟩
          · split
            · exact Or.inl ⟨_, rfl⟩
            · split
              · exact Or.inl ⟨_, rfl⟩
              · exact Or.inr rfl

/-- Helper: an allowed decision is exactly the terminal allow decision. -/
theorem evaluatePolicy_allowed_eq (now : Clock) (ctx : AttributeContext)
    (hallow : (evaluatePolicy now ctx).allowed = true) :
    evaluatePolicy now ctx = allowDecision now ctx.contextExtensions := by
  rcases evaluatePolicy_cases now ctx with ⟨r, hr⟩ | h
  · rw [hr] at hallow; cases hallow
  · exact h

/-- C2: a context violating both the admin-path rule and the
POST-authorization rule is denied with the reason of the path rule — the chain
evaluates rules in the fixed order and stops at the first deny, so the
reason of the POST rule never surfaces. -/
theorem c2_short_circuit_admin_over_post (now : Clock) (ctx : AttributeContext)
    (r : RequestAttrs) (h : HttpRequest)
    (hreq : ctx.request = some r) (hhttp : r.http = some h)
    (hadmin : goHasPrefix h.path "/admin" = true)
    (hmethod : h.method = "POST")
    (hauth : authHeaderMissing (mapGet h.headers "authorization") = true) :
    evaluatePolicy now ctx = denyD ("access denied to admin path: " ++ h.path) := by
  unfold evaluatePolicy
  simp only [hreq, hhttp, hadmin, if_true]

/-- C2 witness: `POST /admin/x` with no `authorization` header at hour 10
yields the admin-path reason, not the POST-authorization reason. -/
theorem c2_short_circuit_admin_over_post_witness :
    evaluatePolicy clockTen (mkCtx "POST" "/admin/x" [] []) =
      denyD "access denied to admin path: /admin/x" := by
  rw [c2_short_circuit_admin_over_post clockTen (mkCtx "POST" "/admin/x" [] [])
      ⟨some ⟨"POST", "/admin/x", "backend", "http", []⟩⟩
      ⟨"POST", "/admin/x", "backend", "http", []⟩ rfl rfl (by decide) rfl (by decide)]
  decide

/-- C3: the `headersToRemove` of every allowed decision contains
`authorization`, whatever the headers and extensions of the context are. -/
theorem c3_allow_removes_authorization (now : Clock) (ctx : AttributeContext)
    (hallow : (evaluatePolicy now ctx).allowed = true) :
    "authorization" ∈ (evaluatePolicy now ctx).headersToRemove := by
  rw [evaluatePolicy_allowed_eq now ctx hallow]
  simp [allowDecision]

/-- C3 witness: the scenario-A allow decision removes `authorization`. -/
theorem c3_allow_removes_authorization_witness :
    "authorization" ∈
      (evaluatePolicy clockTen (mkCtx "GET" "/api/users" [] [])).headersToRemove :=
  c3_allow_removes_authorization clockTen _ (by decide)

/-- Helper: when the context is well-formed and rules 1–2 pass and the
hour is inside the 9–17 window, evaluation proceeds to rules 4–5. -/
theorem evaluatePolicy_after_time (now : Clock) (ctx : AttributeContext)
    (r : RequestAttrs) (h : HttpRequest)
    (hreq : ctx.request = some r) (hhttp : r.http = some h)
    (hadmin : goHasPrefix h.path "/admin" = false)
    (hpost : (h.method == "POST"
      && authHeaderMissing (mapGet h.headers "authorization")) = false)
    (h9 : 9 ≤ now.hour) (h17 : now.hour < 17) :
    evaluatePolicy now ctx = afterTimeRules now ctx.contextExtensions h.headers := by
  unfold evaluatePolicy
  simp only [hreq, hhttp]
  rw [if_neg (by simp [hadmin]), if_neg (by simp [hpost]), if_neg (by omega)]

/-- Helper: when the context is well-formed and rules 1–2 pass and the
hour is outside the 9–17 window, rule 3 denies. -/
theorem evaluatePolicy_time_deny (now : Clock) (ctx : AttributeContext)
    (r : RequestAttrs) (h : HttpRequest)
    (hreq : ctx.request = some r) (hhttp : r.http = some h)
    (hadmin : goHasPrefix h.path "/admin" = false)
    (hpost : (h.method == "POST"
      && authHeaderMissing (mapGet h.headers "authorization")) = false)
    (hw : now.hour < 9 ∨ 17 ≤ now.hour) :
    evaluatePolicy now ctx =
      denyD ("access restricted to business hours (9 AM - 5 PM), current time: "
        ++ now.humanFormat) := by
  unfold evaluatePolicy
  simp only [hreq, hhttp]
  rw [if_neg (by simp [hadmin]), if_neg (by simp [hpost]), if_pos hw]

/-- C5: for contexts that pass rules 1–2 the time-window rule denies
exactly when the hour is below 9 or at least 17, with a reason carrying
the human-formatted current time; inside the window evaluation proceeds
to the remaining rules. -/
theorem c5_business_hours_window (now : Clock) (ctx : AttributeContext)
    (r : RequestAttrs) (h : HttpRequest)
    (hreq : ctx.request = some r) (hhttp : r.http = some h)
    (hadmin : goHasPrefix h.path "/admin" = false)
    (hpost : (h.method == "POST"
      && authHeaderMissing (mapGet h.headers "authorization")) = false) :
    ((now.hour < 9 ∨ 17 ≤ now.hour) →
      evaluatePolicy now ctx =
        denyD ("access restricted to business hours (9 AM - 5 PM), current time: "
          ++ now.humanFormat)) ∧
    (9 ≤ now.hour → now.hour < 17 →
      evaluatePolicy now ctx = afterTimeRules now ctx.contextExtensions h.headers) :=
  ⟨fun hw => evaluatePolicy_time_deny now ctx r h hreq hhttp hadmin hpost hw,
   fun h9 h17 => evaluatePolicy_after_time now ctx r h hreq hhttp hadmin hpost h9 h17⟩

/-- C5 witness: `GET /api/data` at hour 20 is denied with the
business-hours reason; the same request at hour 10 passes the time rule
and proceeds to rules 4–5. -/
theorem c5_business_hours_window_witness :
    evaluatePolicy clockTwenty (mkCtx "GET" "/api/data" [] []) =
      denyD "access restricted to business hours (9 AM - 5 PM), current time: 8:00 PM" ∧
    evaluatePolicy clockTen (mkCtx "GET" "/api/data" [] []) =
      afterTimeRules clockTen [] [] := by
  constructor
  · rw [(c5_business_hours_window clockTwenty (mkCtx "GET" "/api/data" [] [])
        ⟨some ⟨"GET", "/api/data", "backend", "http", []⟩⟩
        ⟨"GET", "/api/data", "backend", "http", []⟩ rfl rfl (by decide) (by decide)).1
        (by decide)]
    decide
  · rw [(c5_business_hours_window clockTen (mkCtx "GET" "/api/data" [] [])
        ⟨some ⟨"GET", "/api/data", "backend", "http", []⟩⟩
        ⟨"GET", "/api/data", "backend", "http", []⟩ rfl rfl (by decide) (by decide)).2
        (by decide) (by decide)]
    rfl

/-- C4: with `contextExtensions["environment"] = "production"` and rules
1–3 passing, evaluation denies unless the `x-production-access` header is
exactly `"true"`; with that header equal to `"true"` and the bot rule
passing, the request is allowed and the allow decision carries
`x-environment: production`. -/
theorem c4_production_gate (now : Clock) (ctx : AttributeContext)
    (r : RequestAttrs) (h : HttpRequest)
    (hreq : ctx.request = some r) (hhttp : r.http = some h)
    (hadmin : goHasPrefix h.path "/admin" = false)
    (hpost : (h.method == "POST"
      && authHeaderMissing (mapGet h.headers "authorization")) = false)
    (h9 : 9 ≤ now.hour) (h17 : now.hour < 17)
    (henv : mapGet ctx.contextExtensions "environment" = some "production") :
    (mapGet h.headers "x-production-access" ≠ some "true" →
      evaluatePolicy now ctx =
        denyD "production environment requires x-production-access header") ∧
    (mapGet h.headers "x-production-access" = some "true" →
      uaDeny (mapGet h.headers "user-agent") = false →
      (evaluatePolicy now ctx).allowed = true ∧
      mapGet (evaluatePolicy now ctx).headers "x-environment" = some "production") := by
  rw [evaluatePolicy_after_time now ctx r h hreq hhttp hadmin hpost h9 h17]
  unfold afterTimeRules
  constructor
  · intro hx
    rw [if_pos (by simp [henv, hx])]
  · intro hx hua
    rw [if_neg (by simp [henv, hx]), if_neg (by simp [hua])]
    refine ⟨rfl, ?_⟩
    unfold allowDecision allowHeaders envApplied
    cases hreg : mapGet ctx.contextExtensions "region" with
    | none => simp only [henv]; rfl
    | some region => simp only [henv]; rfl

/-- C4 witness: `GET /api/data` at hour 10 in the production environment
is denied without the `x-production-access: true` header, and with it is
allowed with `x-environment: production` set. -/
theorem c4_production_gate_witness :
    evaluatePolicy clockTen (mkCtx "GET" "/api/data" [] [("environment", "production")]) =
      denyD "production environment requires x-production-access header" ∧
    (evaluatePolicy clockTen (mkCtx "GET" "/api/data" [("x-production-access", "true")]
        [("environment", "production")])).allowed = true ∧
    mapGet (evaluatePolicy clockTen (mkCtx "GET" "/api/data" [("x-production-access", "true")]
        [("environment", "production")])).headers "x-environment" = some "production" := by
  refine ⟨?_, ?_⟩
  · exact (c4_production_gate clockTen _
      ⟨some ⟨"GET", "/api/data", "backend", "http", []⟩⟩
      ⟨"GET", "/api/data", "backend", "http", []⟩
      rfl rfl (by decide) (by decide) (by decide) (by decide) (by decide)).1 (by decide)
  · exact (c4_production_gate clockTen _
      ⟨some ⟨"GET", "/api/data", "backend", "http", [("x-production-access", "true")]⟩⟩
      ⟨"GET", "/api/data", "backend", "http", [("x-production-access", "true")]⟩
      rfl rfl (by decide) (by decide) (by decide) (by decide) (by decide)).2 (by decide) (by decide)

/-- C6: once rules 1–4 have passed, a present `user-agent` header whose
case-folded value contains `"bot"` causes a deny with the bot reason; a
present header without that substring, or an absent header, leads to the
terminal allow (no deny, no error). -/
theorem c6_bot_user_agent_rule (now : Clock) (ctx : AttributeContext)
    (r : RequestAttrs) (h : HttpRequest)
    (hreq : ctx.request = some r) (hhttp : r.http = some h)
    (hadmin : goHasPrefix h.path "/admin" = false)
    (hpost : (h.method == "POST"
      && authHeaderMissing (mapGet h.headers "authorization")) = false)
    (h9 : 9 ≤ now.hour) (h17 : now.hour < 17)
    (henv : ((mapGet ctx.contextExtensions "environment" == some "production")
      && !(mapGet h.headers "x-production-access" == some "true")) = false) :
    (∀ ua, mapGet h.headers "user-agent" = some ua →
      strContains (goToLower ua) "bot" = true →
      evaluatePolicy now ctx = denyD "bot user agents are not allowed") ∧
    (∀ ua, mapGet h.headers "user-agent" = some ua →
      strContains (goToLower ua) "bot" = false →
      (evaluatePolicy now ctx).allowed = true) ∧
    (mapGet h.headers "user-agent" = none →
      (evaluatePolicy now ctx).allowed = true) := by
  rw [evaluatePolicy_after_time now ctx r h hreq hhttp hadmin hpost h9 h17]
  unfold afterTimeRules
  rw [if_neg (by simp [henv])]
  refine ⟨?_, ?_, ?_⟩
  · intro ua hua hbot
    rw [if_pos (by simp [uaDeny, hua, hbot])]
  · intro ua hua hbot
    rw [if_neg (by simp [uaDeny, hua, hbot])]
    rfl
  · intro hua
    rw [if_neg (by simp [uaDeny, hua])]
    rfl

/-- C6 witness: `user-agent: Mozilla/5.0 GoogleBot` is denied by the bot
rule; `user-agent: MOZILLA` is allowed; no `user-agent` header is
allowed. -/
theorem c6_bot_user_agent_rule_witness :
    evaluatePolicy clockTen
        (mkCtx "GET" "/api/health" [("user-agent", "Mozilla/5.0 GoogleBot")] []) =
      denyD "bot user agents are not allowed" ∧
    (evaluatePolicy clockTen (mkCtx "GET" "/api/data" [("user-agent", "MOZILLA")] [])).allowed
      = true ∧
    (evaluatePolicy clockTen (mkCtx "GET" "/api/data" [] [])).allowed = true := by
  refine ⟨?_, ?_, ?_⟩
  · exact (c6_bot_user_agent_rule clockTen _
      ⟨some ⟨"GET", "/api/health", "backend", "http", [("user-agent", "Mozilla/5.0 GoogleBot")]⟩⟩
      ⟨"GET", "/api/health", "backend", "http", [("user-agent", "Mozilla/5.0 GoogleBot")]⟩
      rfl rfl (by decide) (by decide) (by decide) (by decide) (by decide)).1
      "Mozilla/5.0 GoogleBot" (by decide) (by decide)
  · exact (c6_bot_user_agent_rule clockTen _
      ⟨some ⟨"GET", "/api/data", "backend", "http", [("user-agent", "MOZILLA")]⟩⟩
      ⟨"GET", "/api/data", "backend", "http", [("user-agent", "MOZILLA")]⟩
      rfl rfl (by decide) (by decide) (by decide) (by decide) (by decide)).2.1
      "MOZILLA" (by decide) (by decide)
  · exact (c6_bot_user_agent_rule clockTen _
      ⟨some ⟨"GET", "/api/data", "backend", "http", []⟩⟩
      ⟨"GET", "/api/data", "backend", "http", []⟩
      rfl rfl (by decide) (by decide) (by decide) (by decide) (by decide)).2.2
      (by decide)

/-- C7: every decision with `allowed = false` translates to a response
with protocol status 7 (permission denied) carrying the decision reason,
a synthesized HTTP 403 response with exactly the `x-auth-denied: true`
and `x-auth-reason` headers, and body `Access Denied: <reason>`; and the
endpoint returns exactly this translation for any context the pipeline
denies. -/
theorem c7_deny_response_shape (d : policyDecision) (hd : d.allowed = false) :
    buildDenyResponse d =
      { status := { code := 7, message := d.reason }
        httpResponse := HttpResponseShape.deniedResponse 403
          [ { header := { key := "x-auth-denied", value := "true" }, append := none },
            { header := { key := "x-auth-reason", value := d.reason }, append := none } ]
          ("Access Denied: " ++ d.reason) } ∧
    (∀ now ctx, evaluatePolicy now ctx = d →
      Check now { attributes := some ctx } = Except.ok (buildDenyResponse d)) := by
  refine ⟨rfl, ?_⟩
  intro now ctx he
  unfold Check
  simp only [he, hd, Bool.false_eq_true, if_false]

/-- C7 witness: scenario B — `GET /admin/users` at hour 10 yields status
7 with an HTTP 403 response whose body is
`Access Denied: access denied to admin path: /admin/users`. -/
theorem c7_deny_response_shape_witness :
    Check clockTen { attributes := some (mkCtx "GET" "/admin/users" [] []) } =
      Except.ok
        { status := { code := 7, message := "access denied to admin path: /admin/users" }
          httpResponse := HttpResponseShape.deniedResponse 403
            [ { header := { key := "x-auth-denied", value := "true" }, append := none },
              { header := { key := "x-auth-reason", value := "access denied to admin path: /admin/users" }, append := none } ]
            "Access Denied: access denied to admin path: /admin/users" } := by
  rw [(c7_deny_response_shape (denyD "access denied to admin path: /admin/users") rfl).2
      clockTen (mkCtx "GET" "/admin/users" [] []) (by decide)]
  rfl

/-- C8: for a fixed context and a fixed wall-clock instant, two
evaluations of the pipeline produce identical decisions in every
component (allowed flag, reason, headers to set, headers to remove). -/
theorem c8_determinism (now : Clock) (ctx : AttributeContext) (d1 d2 : policyDecision)
    (h1 : d1 = evaluatePolicy now ctx) (h2 : d2 = evaluatePolicy now ctx) :
    d1.allowed = d2.allowed ∧ d1.reason = d2.reason ∧
    d1.headers = d2.headers ∧ d1.headersToRemove = d2.headersToRemove := by
  subst h1; subst h2
  exact ⟨rfl, rfl, rfl, rfl⟩

/-- C8 witness: two evaluations of scenario A at the same instant agree
on every component of the decision. -/
theorem c8_determinism_witness :
    (evaluatePolicy clockTen (mkCtx "GET" "/api/users" [] [])).allowed =
      (evaluatePolicy clockTen (mkCtx "GET" "/api/users" [] [])).allowed ∧
    (evaluatePolicy clockTen (mkCtx "GET" "/api/users" [] [])).reason =
      (evaluatePolicy clockTen (mkCtx "GET" "/api/users" [] [])).reason :=
  ⟨(c8_determinism clockTen (mkCtx "GET" "/api/users" [] []) _ _ rfl rfl).1,
   (c8_determinism clockTen (mkCtx "GET" "/api/users" [] []) _ _ rfl rfl).2.1⟩

/-- C9: with empty `contextExtensions` the environment rule never
produces the deny, an allow decision never carries `x-environment` or
`x-region`, and scenario A (`GET /api/users`, no headers, hour 10) is
allowed with exactly the base headers and `headersToRemove =
["authorization"]`. -/
theorem c9_empty_context_extensions (now : Clock) (ctx : AttributeContext)
    (hce : ctx.contextExtensions = []) :
    (evaluatePolicy now ctx).reason ≠
      "production environment requires x-production-access header" ∧
    ((evaluatePolicy now ctx).allowed = true →
      mapGet (evaluatePolicy now ctx).headers "x-environment" = none ∧
      mapGet (evaluatePolicy now ctx).headers "x-region" = none) ∧
    (∀ r h, ctx.request = some r → r.http = some h →
      h.method = "GET" → h.path = "/api/users" → h.headers = [] → now.hour = 10 →
      evaluatePolicy now ctx =
        { allowed := true, reason := "request meets all policy requirements",
          headers := [("x-authorized-by", "policy-engine"),
                      ("x-decision-time", now.rfc3339)],
          headersToRemove := ["authorization"] }) := by
  refine ⟨?_, ?_, ?_⟩
  · unfold evaluatePolicy afterTimeRules
    rw [hce]
    split
    · decide
    · split
      · decide
      · split
        · exact @append_ne_of_head_ne 'a' 'p' _ _ _ rfl rfl (by decide)
        · split
          · decide
          · split
            · exact @append_ne_of_head_ne 'a' 'p' _ _ _ rfl rfl (by decide)
            · split
              · next hcond => exact absurd hcond Bool.false_ne_true
              · split
                · decide
                · exact fun hcontra => absurd hcontra
                    ((by decide : "request meets all policy requirements" ≠
                      "production environment requires x-production-access header"))
  · intro hallow
    rw [evaluatePolicy_allowed_eq now ctx hallow, hce]
    exact ⟨rfl, rfl⟩
  · intro r h hreq hhttp hm hp hh hhour
    rw [evaluatePolicy_after_time now ctx r h hreq hhttp (by rw [hp]; decide)
        (by rw [hm, hh]; decide) (by omega) (by omega)]
    unfold afterTimeRules
    rw [hce, hh]
    split
    · next hcond => exact absurd hcond Bool.false_ne_true
    · split
      · next hcond => exact absurd hcond Bool.false_ne_true
      · rfl

/-- C9 witness: scenario A — `GET /api/users`, no headers, hour 10, no
context extensions — is allowed with `x-authorized-by: policy-engine`
and `x-decision-time` set and exactly `authorization` removed. -/
theorem c9_empty_context_extensions_witness :
    evaluatePolicy clockTen (mkCtx "GET" "/api/users" [] []) =
      { allowed := true, reason := "request meets all policy requirements",
        headers := [("x-authorized-by", "policy-engine"),
                    ("x-decision-time", clockTen.rfc3339)],
        headersToRemove := ["authorization"] } :=
  (c9_empty_context_extensions clockTen (mkCtx "GET" "/api/users" [] []) rfl).2.2
    ⟨some ⟨"GET", "/api/users", "backend", "http", []⟩⟩
    ⟨"GET", "/api/users", "backend", "http", []⟩ rfl rfl rfl rfl rfl rfl

/-- C10: the header map of every allowed decision holds exactly
`x-authorized-by: policy-engine`, `x-decision-time` (the RFC 3339
decision time), `x-environment` exactly when `contextExtensions` has
`environment` (value copied verbatim), and `x-region` exactly when it
has `region`; no other key occurs. -/
theorem c10_allow_headers_exact (now : Clock) (ctx : AttributeContext)
    (hallow : (evaluatePolicy now ctx).allowed = true) :
    mapGet (evaluatePolicy now ctx).headers "x-authorized-by" = some "policy-engine" ∧
    mapGet (evaluatePolicy now ctx).headers "x-decision-time" = some now.rfc3339 ∧
    mapGet (evaluatePolicy now ctx).headers "x-environment" =
      mapGet ctx.contextExtensions "environment" ∧
    mapGet (evaluatePolicy now ctx).headers "x-region" =
      mapGet ctx.contextExtensions "region" ∧
    (∀ kv, kv ∈ (evaluatePolicy now ctx).headers →
      kv.1 = "x-authorized-by" ∨ kv.1 = "x-decision-time" ∨
      kv.1 = "x-environment" ∨ kv.1 = "x-region") := by
  rw [evaluatePolicy_allowed_eq now ctx hallow]
  unfold allowDecision allowHeaders envApplied baseAllowHeaders
  cases henv : mapGet ctx.contextExtensions "environment" <;>
    cases hreg : mapGet ctx.contextExtensions "region" <;>
    refine ⟨rfl, rfl, rfl, rfl, ?_⟩ <;>
    · intro kv hkv
      fin_cases hkv <;> simp

/-- A concrete context whose extensions carry both an `environment`
value (not `production`) and a `region` value. -/
def ctxEnvRegion : AttributeContext :=
  ⟨some ⟨some ⟨"GET", "/api/data", "backend", "http", []⟩⟩,
   [("environment", "staging"), ("region", "us-west-1")]⟩

/-- C10 witness: with `environment=staging` and `region=us-west-1` the
allow decision copies both into `x-environment`/`x-region` and carries
the two base headers. -/
theorem c10_allow_headers_exact_witness :
    mapGet (evaluatePolicy clockTen ctxEnvRegion).headers "x-authorized-by" =
      some "policy-engine" ∧
    mapGet (evaluatePolicy clockTen ctxEnvRegion).headers "x-decision-time" =
      some clockTen.rfc3339 ∧
    mapGet (evaluatePolicy clockTen ctxEnvRegion).headers "x-environment" =
      mapGet ctxEnvRegion.contextExtensions "environment" ∧
    mapGet (evaluatePolicy clockTen ctxEnvRegion).headers "x-region" =
      mapGet ctxEnvRegion.contextExtensions "region" := by
  have h := c10_allow_headers_exact clockTen ctxEnvRegion (by decide)
  exact ⟨h.1, h.2.1, h.2.2.1, h.2.2.2.1⟩

/-- C1 counterexample: a context whose HTTP request sub-record is absent
is NOT surfaced as an invalid-argument precondition failure — `Check`
returns a normal deny response (protocol status 7, HTTP 403) built from
the deny decision with reason `missing HTTP request`, i.e. it is treated
exactly like a policy deny, contradicting the claim. -/
theorem c1_counterexample :
    Check clockTen ⟨some ⟨some ⟨none⟩, []⟩⟩ =
      Except.ok
        { status := { code := 7, message := "missing HTTP request" }
          httpResponse := HttpResponseShape.deniedResponse 403
            [ { header := { key := "x-auth-denied", value := "true" }, append := none },
              { header := { key := "x-auth-reason", value := "missing HTTP request" }, append := none } ]
            "Access Denied: missing HTTP request" } := by
  rfl

/-- C1 (amended): an absent top-level attribute bundle fails with the
invalid-argument error `missing attributes`; but an absent request
record or absent HTTP sub-record is handled inside `evaluatePolicy` as a
deny decision (`missing request` / `missing HTTP request`) and surfaced
through the ordinary permission-denied deny response, not as an
invalid-argument failure. -/
theorem c1_missing_context_handling (now : Clock) (req : CheckRequest) :
    (req.attributes = none →
      Check now req =
        Except.error { code := GrpcCode.invalidArgument, message := "missing attributes" }) ∧
    (∀ attrs, req.attributes = some attrs → attrs.request = none →
      Check now req = Except.ok (buildDenyResponse (denyD "missing request"))) ∧
    (∀ attrs r, req.attributes = some attrs → attrs.request = some r → r.http = none →
      Check now req = Except.ok (buildDenyResponse (denyD "missing HTTP request"))) := by
  refine ⟨?_, ?_, ?_⟩
  · intro hnone
    unfold Check
    simp only [hnone]
  · intro attrs hattrs hreq
    unfold Check
    simp only [hattrs]
    have he : evaluatePolicy now attrs = denyD "missing request" := by
      unfold evaluatePolicy
      simp only [hreq]
    rw [he]
    rfl
  · intro attrs r hattrs hreq hhttp
    unfold Check
    simp only [hattrs]
    have he : evaluatePolicy now attrs = denyD "missing HTTP request" := by
      unfold evaluatePolicy
      simp only [hreq, hhttp]
    rw [he]
    rfl

/-- C1 witness: the three malformed shapes — no attributes, no request
record, no HTTP sub-record — at the concrete hour-10 instant. -/
theorem c1_missing_context_handling_witness :
    Check clockTen ⟨none⟩ =
      Except.error { code := GrpcCode.invalidArgument, message := "missing attributes" } ∧
    Check clockTen ⟨some ⟨none, []⟩⟩ =
      Except.ok (buildDenyResponse (denyD "missing request")) ∧
    Check clockTen ⟨some ⟨some ⟨none⟩, []⟩⟩ =
      Except.ok (buildDenyResponse (denyD "missing HTTP request")) :=
  ⟨(c1_missing_context_handling clockTen ⟨none⟩).1 rfl,
   (c1_missing_context_handling clockTen ⟨some ⟨none, []⟩⟩).2.1 ⟨none, []⟩ rfl rfl,
   (c1_missing_context_handling clockTen ⟨some ⟨some ⟨none⟩, []⟩⟩).2.2 ⟨some ⟨none⟩, []⟩ ⟨none⟩ rfl rfl rfl⟩
